import Mathlib

/-!
Verification of the furtrack-api client library (src/index.js).

The development shallowly embeds the library's pure logic:

* the tag classifier (`FurtrackAPI.parseTag`, `FurtrackAPI.getTagsByType`,
  the static `tagTypePrefixes` table, including the JavaScript own-property
  enumeration order that `Object.entries` applies to that table);
* the request-path construction of the network methods, together with
  `encodeURIComponent` modelled after ECMA-262 (UTF-8 percent-encoding of
  every character outside the `uriUnescaped` set);
* `fetchJSON`'s status handling, with the network modelled as a function
  from request paths to HTTP responses and JSON bodies as an inductive type;
* the header state mutated by `setHeaders` / `setApiKey`, with JavaScript
  object spread modelled as append under a last-entry-wins lookup.
-/

namespace Furtrack

/-- The `FurtrackAPI.TagTypes` enum.  In the source the variants are the
distinct strings "character", "maker", "photographer", "species", "event",
"general"; an inductive type with decidable equality models them. -/
inductive TagType where
  | Character
  | Maker
  | Photographer
  | Species
  | Event
  | General
deriving DecidableEq, Repr

/-- Result of `parseTag`: an object with a `type` and a `value` property. -/
structure ParsedTag where
  type : TagType
  value : String
deriving DecidableEq, Repr

/-- The static `FurtrackAPI.tagTypePrefixes` object, as an association list
in the declaration order of the source literal. -/
def tagTypePrefixes : List (String × TagType) :=
  [("1:", TagType.Character),
   ("2:", TagType.Maker),
   ("3:", TagType.Photographer),
   ("5:", TagType.Event),
   ("6", TagType.Species)]

/-- Numeric value of a string of decimal digits. -/
def digitsToNat (l : List Char) : Nat :=
  l.foldl (fun acc c => 10 * acc + (c.toNat - 48)) 0

/-- Whether a JavaScript property key is an array index: a canonical
decimal numeral (no leading zero except "0") whose value is below
2^32 - 1.  Such keys enumerate before all other string keys. -/
def isArrayIndexKey (s : String) : Bool :=
  !s.data.isEmpty
    && s.data.all (fun c => '0' ≤ c && c ≤ '9')
    && (s == "0" || s.data.headD '0' != '0')
    && digitsToNat s.data < 4294967295

/-- Insert an entry into a list of array-index entries, keeping numeric
key order (used to model ascending index enumeration). -/
def insertByIndex (x : String × TagType) :
    List (String × TagType) → List (String × TagType)
  | [] => [x]
  | y :: ys =>
    if digitsToNat x.1.data ≤ digitsToNat y.1.data then x :: y :: ys
    else y :: insertByIndex x ys

/-- JavaScript own-property enumeration order used by `Object.entries`:
array-index keys first in ascending numeric order, then the remaining
string keys in insertion order. -/
def jsEntriesOrder (l : List (String × TagType)) : List (String × TagType) :=
  ((l.filter (fun p => isArrayIndexKey p.1)).foldr insertByIndex [])
    ++ l.filter (fun p => !isArrayIndexKey p.1)

/-- The loop body of `FurtrackAPI.parseTag`: try each `(prefixString, type)`
entry in turn; on the first entry whose string is a textual-prefix of the
tag, return that type and the tag with the matched characters sliced off;
if no entry matches, fall through to the `General` default. -/
def parseTagLoop : List (String × TagType) → List Char → ParsedTag
  | [], l => ⟨TagType.General, ⟨l⟩⟩
  | (p, t) :: rest, l =>
    if p.data.isPrefixOf l then ⟨t, ⟨l.drop p.data.length⟩⟩
    else parseTagLoop rest l

/-- `FurtrackAPI.parseTag`: iterates `Object.entries(this.tagTypePrefixes)`
— hence in JavaScript enumeration order, which puts the array-index key
"6" before the colon-bearing keys — and returns the first match, else
the `General` fallback. -/
def parseTag (s : String) : ParsedTag :=
  parseTagLoop (jsEntriesOrder tagTypePrefixes) s.data

/-- Reference classifier written from the specification's words: the prefix
rules are tried in declaration order "1:", "2:", "3:", "5:", "6" and the
first textual-prefix match wins. -/
def parseTagDeclOrder (s : String) : ParsedTag :=
  parseTagLoop tagTypePrefixes s.data

theorem jsEntriesOrder_tagTypePrefixes :
    jsEntriesOrder tagTypePrefixes =
      [("6", TagType.Species),
       ("1:", TagType.Character),
       ("2:", TagType.Maker),
       ("3:", TagType.Photographer),
       ("5:", TagType.Event)] := by
  decide

/-- C1: for every tag string, a "1:" start yields Character with the first
two characters removed, "2:" Maker, "3:" Photographer, "5:" Event, a "6"
start yields Species with the first character removed, and a string
starting with none of these yields General with the string unchanged. -/
theorem parseTag_prefix_rules (s : String) :
    ("1:".data <+: s.data → parseTag s = ⟨TagType.Character, ⟨s.data.drop 2⟩⟩)
    ∧ ("2:".data <+: s.data → parseTag s = ⟨TagType.Maker, ⟨s.data.drop 2⟩⟩)
    ∧ ("3:".data <+: s.data → parseTag s = ⟨TagType.Photographer, ⟨s.data.drop 2⟩⟩)
    ∧ ("5:".data <+: s.data → parseTag s = ⟨TagType.Event, ⟨s.data.drop 2⟩⟩)
    ∧ ("6".data <+: s.data → parseTag s = ⟨TagType.Species, ⟨s.data.drop 1⟩⟩)
    ∧ (¬ "1:".data <+: s.data → ¬ "2:".data <+: s.data →
       ¬ "3:".data <+: s.data → ¬ "5:".data <+: s.data →
       ¬ "6".data <+: s.data →
       parseTag s = ⟨TagType.General, s⟩) := by
  refine ⟨?_, ?_, ?_, ?_, ?_, ?_⟩
  · rintro ⟨t, ht⟩
    simp only [parseTag, jsEntriesOrder_tagTypePrefixes]
    rw [← ht]; simp [parseTagLoop, List.isPrefixOf]
  · rintro ⟨t, ht⟩
    simp only [parseTag, jsEntriesOrder_tagTypePrefixes]
    rw [← ht]; simp [parseTagLoop, List.isPrefixOf]
  · rintro ⟨t, ht⟩
    simp only [parseTag, jsEntriesOrder_tagTypePrefixes]
    rw [← ht]; simp [parseTagLoop, List.isPrefixOf]
  · rintro ⟨t, ht⟩
    simp only [parseTag, jsEntriesOrder_tagTypePrefixes]
    rw [← ht]; simp [parseTagLoop, List.isPrefixOf]
  · rintro ⟨t, ht⟩
    simp only [parseTag, jsEntriesOrder_tagTypePrefixes]
    rw [← ht]; simp [parseTagLoop, List.isPrefixOf]
  · intro h1 h2 h3 h5 h6
    simp only [parseTag, jsEntriesOrder_tagTypePrefixes, parseTagLoop]
    rw [if_neg (fun hb => h6 (List.isPrefixOf_iff_prefix.mp hb)),
        if_neg (fun hb => h1 (List.isPrefixOf_iff_prefix.mp hb)),
        if_neg (fun hb => h2 (List.isPrefixOf_iff_prefix.mp hb)),
        if_neg (fun hb => h3 (List.isPrefixOf_iff_prefix.mp hb)),
        if_neg (fun hb => h5 (List.isPrefixOf_iff_prefix.mp hb))]

theorem parseTag_prefix_rules_witness :
    parseTag "1:Fluffy" = ⟨TagType.Character, "Fluffy"⟩
    ∧ parseTag "2:MakerName" = ⟨TagType.Maker, "MakerName"⟩
    ∧ parseTag "3:PhotoGuy" = ⟨TagType.Photographer, "PhotoGuy"⟩
    ∧ parseTag "5:SomeEvent" = ⟨TagType.Event, "SomeEvent"⟩
    ∧ parseTag "6Wolf" = ⟨TagType.Species, "Wolf"⟩
    ∧ parseTag "randomtag" = ⟨TagType.General, "randomtag"⟩ :=
  ⟨(parseTag_prefix_rules "1:Fluffy").1 (by decide),
   (parseTag_prefix_rules "2:MakerName").2.1 (by decide),
   (parseTag_prefix_rules "3:PhotoGuy").2.2.1 (by decide),
   (parseTag_prefix_rules "5:SomeEvent").2.2.2.1 (by decide),
   (parseTag_prefix_rules "6Wolf").2.2.2.2.1 (by decide),
   (parseTag_prefix_rules "randomtag").2.2.2.2.2
     (by decide) (by decide) (by decide) (by decide) (by decide)⟩

/-- C2: the implementation's parseTag — which iterates the prefix table in
JavaScript own-property enumeration order, "6" first — returns, on every
input string, the same result as the reference classifier that tries the
rules in declaration order "1:", "2:", "3:", "5:", "6" with the first
textual-prefix match winning. -/
theorem parseTag_eq_declOrder (s : String) : parseTag s = parseTagDeclOrder s := by
  simp only [parseTag, parseTagDeclOrder, jsEntriesOrder_tagTypePrefixes]
  rcases hl : s.data with _ | ⟨c, cs⟩
  · rfl
  · by_cases h6 : c = '6'
    · subst h6; simp [parseTagLoop, tagTypePrefixes, List.isPrefixOf]
    · by_cases h1 : c = '1'
      · subst h1; simp [parseTagLoop, tagTypePrefixes, List.isPrefixOf]
      · by_cases h2 : c = '2'
        · subst h2; simp [parseTagLoop, tagTypePrefixes, List.isPrefixOf]
        · by_cases h3 : c = '3'
          · subst h3; simp [parseTagLoop, tagTypePrefixes, List.isPrefixOf]
          · by_cases h5 : c = '5'
            · subst h5; simp [parseTagLoop, tagTypePrefixes, List.isPrefixOf]
            · have e6 : ('6' == c) = false := beq_eq_false_iff_ne.mpr (Ne.symm h6)
              have e1 : ('1' == c) = false := beq_eq_false_iff_ne.mpr (Ne.symm h1)
              have e2 : ('2' == c) = false := beq_eq_false_iff_ne.mpr (Ne.symm h2)
              have e3 : ('3' == c) = false := beq_eq_false_iff_ne.mpr (Ne.symm h3)
              have e5 : ('5' == c) = false := beq_eq_false_iff_ne.mpr (Ne.symm h5)
              simp [parseTagLoop, tagTypePrefixes, List.isPrefixOf, e6, e1, e2, e3, e5]

/-- A tag record as consumed by `getTagsByType`: an object carrying a
`tagName` string. -/
structure TagRecord where
  tagName : String
deriving DecidableEq, Repr

/-- The static `FurtrackAPI.getTagsByType`: map each record through
`parseTag` of its `tagName`, keep the parses whose `type` equals the
requested type, and return their `value`s. -/
def getTagsByType (tags : List TagRecord) (t : TagType) : List String :=
  ((tags.map (fun tag => parseTag tag.tagName)).filter
      (fun parsed => parsed.type == t)).map
    (fun parsed => parsed.value)

theorem getTagsByType_eq_filter (tags : List TagRecord) (t : TagType) :
    getTagsByType tags t =
      (tags.filter (fun r => (parseTag r.tagName).type = t)).map
        (fun r => (parseTag r.tagName).value) := by
  rw [getTagsByType, List.filter_map, List.map_map]
  rfl

/-- C7: getTagsByType returns exactly the ordered sequence of
parseTag(tagName).value for the records whose parsed type equals the
requested type, in input order with duplicates preserved; the four-record
example yields exactly its two Character values, and a list with no
matching record yields the empty sequence. -/
theorem getTagsByType_spec :
    (∀ (tags : List TagRecord) (t : TagType),
      getTagsByType tags t =
        (tags.filter (fun r => (parseTag r.tagName).type = t)).map
          (fun r => (parseTag r.tagName).value))
    ∧ getTagsByType [⟨"1:Alpha"⟩, ⟨"2:Beta"⟩, ⟨"1:Gamma"⟩, ⟨"random"⟩]
        TagType.Character = ["Alpha", "Gamma"]
    ∧ (∀ (tags : List TagRecord) (t : TagType),
        (∀ r ∈ tags, (parseTag r.tagName).type ≠ t) → getTagsByType tags t = []) := by
  refine ⟨getTagsByType_eq_filter, by decide, ?_⟩
  intro tags t h
  rw [getTagsByType_eq_filter]
  rw [List.filter_eq_nil_iff.mpr (by simpa using h)]
  rfl

theorem getTagsByType_spec_witness :
    getTagsByType [⟨"2:Beta"⟩] TagType.Event = [] :=
  getTagsByType_spec.2.2 [⟨"2:Beta"⟩] TagType.Event (by decide)

/-- Characters left unescaped by ECMA-262 `encodeURIComponent`:
ASCII letters, digits, and - _ . ! ~ * ' ( ). -/
def isUriUnescaped (c : Char) : Bool :=
  ('A' ≤ c && c ≤ 'Z') || ('a' ≤ c && c ≤ 'z') || ('0' ≤ c && c ≤ '9')
    || c == '-' || c == '_' || c == '.' || c == '!' || c == '~'
    || c == '*' || c == '\'' || c == '(' || c == ')'

/-- Uppercase hexadecimal digit for a value below 16. -/
def hexDigitChar (d : Nat) : Char :=
  "0123456789ABCDEF".data.getD d '0'

/-- UTF-8 byte sequence of a Unicode code point. -/
def utf8Bytes (n : Nat) : List Nat :=
  if n < 128 then [n]
  else if n < 2048 then [192 + n / 64, 128 + n % 64]
  else if n < 65536 then [224 + n / 4096, 128 + n / 64 % 64, 128 + n % 64]
  else [240 + n / 262144, 128 + n / 4096 % 64, 128 + n / 64 % 64, 128 + n % 64]

/-- Percent-escape of one byte: "%" followed by two uppercase hex digits. -/
def percentByte (b : Nat) : List Char :=
  ['%', hexDigitChar (b / 16), hexDigitChar (b % 16)]

/-- Escape of one character under `encodeURIComponent`: unescaped
characters pass through, every other character becomes the
percent-escapes of its UTF-8 bytes. -/
def escChar (c : Char) : List Char :=
  if isUriUnescaped c then [c]
  else (utf8Bytes c.toNat).foldr (fun b acc => percentByte b ++ acc) []

/-- Character-list core of `encodeURIComponent`. -/
def encodeCore : List Char → List Char
  | [] => []
  | c :: cs => escChar c ++ encodeCore cs

/-- The `encodeURIComponent` built-in applied to every interpolated path
segment in the source. -/
def encodeURIComponent (s : String) : String :=
  ⟨encodeCore s.data⟩

/-- Value of a hexadecimal digit character. -/
def hexVal (c : Char) : Option Nat :=
  if '0' ≤ c && c ≤ '9' then some (c.toNat - 48)
  else if 'A' ≤ c && c ≤ 'F' then some (c.toNat - 55)
  else if 'a' ≤ c && c ≤ 'f' then some (c.toNat - 87)
  else none

/-- Read one percent-escaped byte from the front of a character list. -/
def readByte : List Char → Option (Nat × List Char)
  | '%' :: h :: l :: rest =>
    match hexVal h, hexVal l with
    | some a, some b => some (16 * a + b, rest)
    | _, _ => none
  | _ => none

/-- Read one code point from the front of a percent-encoded character
list: a non-escape character stands for itself, an escape sequence is
decoded from its UTF-8 bytes. -/
def readCodePoint : List Char → Option (Nat × List Char)
  | [] => none
  | c :: rest =>
    if c ≠ '%' then some (c.toNat, rest)
    else
      match readByte (c :: rest) with
      | none => none
      | some (b0, r0) =>
        if b0 < 128 then some (b0, r0)
        else if b0 < 224 then
          match readByte r0 with
          | some (b1, r1) => some ((b0 - 192) * 64 + (b1 - 128), r1)
          | none => none
        else if b0 < 240 then
          match readByte r0 with
          | some (b1, r1) =>
            match readByte r1 with
            | some (b2, r2) =>
              some ((b0 - 224) * 4096 + (b1 - 128) * 64 + (b2 - 128), r2)
            | none => none
          | none => none
        else
          match readByte r0 with
          | some (b1, r1) =>
            match readByte r1 with
            | some (b2, r2) =>
              match readByte r2 with
              | some (b3, r3) =>
                some ((b0 - 240) * 262144 + (b1 - 128) * 4096
                  + (b2 - 128) * 64 + (b3 - 128), r3)
              | none => none
            | none => none
          | none => none

/-- Fuelled percent-decoder returning the sequence of code points. -/
def decodeCore : Nat → List Char → Option (List Nat)
  | _, [] => some []
  | 0, _ :: _ => none
  | fuel + 1, c :: cs =>
    match readCodePoint (c :: cs) with
    | none => none
    | some (n, rest) => (decodeCore fuel rest).map (fun ns => n :: ns)

/-- Percent-decoder with enough fuel for its input. -/
def decodeCodePoints (l : List Char) : Option (List Nat) :=
  decodeCore l.length l

theorem char_toNat_lt (c : Char) : c.toNat < 1114112 := by
  have h := c.valid
  simp [UInt32.isValidChar, Nat.isValidChar] at h
  show c.val.toNat < 1114112
  rcases h with h | h <;> omega

theorem hexVal_hexDigitChar (d : Nat) (h : d < 16) :
    hexVal (hexDigitChar d) = some d := by
  interval_cases d <;> rfl

theorem readByte_percentByte (b : Nat) (h : b < 256) (rest : List Char) :
    readByte (percentByte b ++ rest) = some (b, rest) := by
  have h1 : b / 16 < 16 := by omega
  have h2 : b % 16 < 16 := by omega
  simp [percentByte, readByte, hexVal_hexDigitChar _ h1, hexVal_hexDigitChar _ h2]
  omega

theorem isUriUnescaped_ne_percent (c : Char) (h : isUriUnescaped c = true) :
    c ≠ '%' := by
  intro hc
  subst hc
  exact absurd h (by decide)

theorem readCodePoint_escChar (c : Char) (rest : List Char) :
    readCodePoint (escChar c ++ rest) = some (c.toNat, rest) := by
  by_cases hu : isUriUnescaped c
  · rw [escChar, if_pos hu]
    simp [readCodePoint, isUriUnescaped_ne_percent c hu]
  · rw [escChar, if_neg hu]
    have hn := char_toNat_lt c
    rw [utf8Bytes]
    by_cases h1 : c.toNat < 128
    · rw [if_pos h1]
      have hb0 := readByte_percentByte c.toNat (by omega) rest
      simp only [percentByte, List.cons_append, List.nil_append, List.append_assoc] at hb0
      simp only [List.foldr_cons, List.foldr_nil, List.append_nil, List.nil_append, percentByte,
        List.cons_append]
      rw [readCodePoint, if_neg (by simp)]
      simp only [hb0]
      rw [if_pos h1]
    · rw [if_neg h1]
      by_cases h2 : c.toNat < 2048
      · rw [if_pos h2]
        have hb0 := readByte_percentByte (192 + c.toNat / 64) (by omega)
          (percentByte (128 + c.toNat % 64) ++ rest)
        have hb1 := readByte_percentByte (128 + c.toNat % 64) (by omega) rest
        simp only [percentByte, List.cons_append, List.nil_append, List.append_assoc] at hb0 hb1
        simp only [List.foldr_cons, List.foldr_nil, List.append_nil, List.nil_append, percentByte,
          List.cons_append]
        rw [readCodePoint, if_neg (by simp)]
        simp only [hb0]
        rw [if_neg (by omega), if_pos (by omega)]
        simp only [hb1]
        have : (192 + c.toNat / 64 - 192) * 64 + (128 + c.toNat % 64 - 128) = c.toNat := by
          omega
        rw [this]
      · rw [if_neg h2]
        by_cases h3 : c.toNat < 65536
        · rw [if_pos h3]
          have hb0 := readByte_percentByte (224 + c.toNat / 4096) (by omega)
            (percentByte (128 + c.toNat / 64 % 64) ++ (percentByte (128 + c.toNat % 64) ++ rest))
          have hb1 := readByte_percentByte (128 + c.toNat / 64 % 64) (by omega)
            (percentByte (128 + c.toNat % 64) ++ rest)
          have hb2 := readByte_percentByte (128 + c.toNat % 64) (by omega) rest
          simp only [percentByte, List.cons_append, List.nil_append, List.append_assoc] at hb0 hb1 hb2
          simp only [List.foldr_cons, List.foldr_nil, List.append_nil, List.nil_append, percentByte,
            List.cons_append]
          rw [readCodePoint, if_neg (by simp)]
          simp only [hb0]
          rw [if_neg (by omega), if_neg (by omega), if_pos (by omega)]
          simp only [hb1, hb2]
          have : (224 + c.toNat / 4096 - 224) * 4096 + (128 + c.toNat / 64 % 64 - 128) * 64
              + (128 + c.toNat % 64 - 128) = c.toNat := by
            omega
          rw [this]
        · rw [if_neg h3]
          have hb0 := readByte_percentByte (240 + c.toNat / 262144) (by omega)
            (percentByte (128 + c.toNat / 4096 % 64)
              ++ (percentByte (128 + c.toNat / 64 % 64) ++ (percentByte (128 + c.toNat % 64) ++ rest)))
          have hb1 := readByte_percentByte (128 + c.toNat / 4096 % 64) (by omega)
            (percentByte (128 + c.toNat / 64 % 64) ++ (percentByte (128 + c.toNat % 64) ++ rest))
          have hb2 := readByte_percentByte (128 + c.toNat / 64 % 64) (by omega)
            (percentByte (128 + c.toNat % 64) ++ rest)
          have hb3 := readByte_percentByte (128 + c.toNat % 64) (by omega) rest
          simp only [percentByte, List.cons_append, List.nil_append, List.append_assoc] at hb0 hb1 hb2 hb3
          simp only [List.foldr_cons, List.foldr_nil, List.append_nil, List.nil_append, percentByte,
            List.cons_append]
          rw [readCodePoint, if_neg (by simp)]
          simp only [hb0]
          rw [if_neg (by omega), if_neg (by omega), if_neg (by omega)]
          simp only [hb1, hb2, hb3]
          have : (240 + c.toNat / 262144 - 240) * 262144 + (128 + c.toNat / 4096 % 64 - 128) * 4096
              + (128 + c.toNat / 64 % 64 - 128) * 64 + (128 + c.toNat % 64 - 128) = c.toNat := by
            omega
          rw [this]

theorem escChar_ne_nil (c : Char) : escChar c ≠ [] := by
  rw [escChar]
  by_cases hu : isUriUnescaped c
  · rw [if_pos hu]; simp
  · rw [if_neg hu, utf8Bytes]
    split_ifs <;> simp [percentByte]

theorem length_le_encodeCore (l : List Char) : l.length ≤ (encodeCore l).length := by
  induction l with
  | nil => simp [encodeCore]
  | cons c cs ih =>
    rw [encodeCore, List.length_append]
    have h := escChar_ne_nil c
    have h1 : 1 ≤ (escChar c).length := by
      cases hesc : escChar c with
      | nil => exact absurd hesc h
      | cons e es => simp
    simp only [List.length_cons]
    omega

theorem decodeCore_succ_cons (f : Nat) (c : Char) (cs : List Char) :
    decodeCore (f + 1) (c :: cs) =
      match readCodePoint (c :: cs) with
      | none => none
      | some (n, rest) => (decodeCore f rest).map (fun ns => n :: ns) := rfl

theorem decodeCore_encodeCore (l : List Char) (fuel : Nat) (h : l.length ≤ fuel) :
    decodeCore fuel (encodeCore l) = some (l.map Char.toNat) := by
  induction l generalizing fuel with
  | nil => cases fuel <;> rfl
  | cons c cs ih =>
    obtain ⟨f, rfl⟩ : ∃ f, fuel = f + 1 := ⟨fuel - 1, by simp at h; omega⟩
    rw [encodeCore]
    have hrcp := readCodePoint_escChar c (encodeCore cs)
    cases hesc : escChar c with
    | nil => exact absurd hesc (escChar_ne_nil c)
    | cons e es =>
      rw [hesc] at hrcp
      simp only [List.cons_append] at hrcp ⊢
      rw [decodeCore_succ_cons]
      simp only [hrcp]
      rw [ih f (by simp at h ⊢; omega)]
      rfl

theorem decodeCodePoints_encodeURIComponent (s : String) :
    decodeCodePoints (encodeURIComponent s).data = some (s.data.map Char.toNat) := by
  rw [encodeURIComponent, decodeCodePoints]
  exact decodeCore_encodeCore s.data (encodeCore s.data).length (length_le_encodeCore s.data)

theorem encodeURIComponent_injective (s t : String)
    (h : encodeURIComponent s = encodeURIComponent t) : s = t := by
  have hs := decodeCodePoints_encodeURIComponent s
  have ht := decodeCodePoints_encodeURIComponent t
  rw [h, ht] at hs
  have hmap : s.data.map Char.toNat = t.data.map Char.toNat := by
    exact Option.some.injEq _ _ ▸ (Option.some.inj hs).symm
  have hinj : Function.Injective Char.toNat := by
    intro a b hab
    exact Char.eq_of_val_eq (UInt32.ext hab)
  have hdata : s.data = t.data := List.map_injective_iff.mpr hinj hmap
  cases s; cases t; simp_all

/-- JSON values as decoded from a response body.  Numbers are modelled as
integers (the claims only exercise integral values). -/
inductive Json where
  | null
  | bool (b : Bool)
  | num (n : Int)
  | str (s : String)
  | arr (elems : List Json)
  | obj (fields : List (String × Json))

/-- JavaScript truthiness of a JSON value: null, false, 0 and the empty
string are falsy; every array and object is truthy. -/
def truthy : Json → Bool
  | Json.null => false
  | Json.bool b => b
  | Json.num n => n != 0
  | Json.str s => s != ""
  | Json.arr _ => true
  | Json.obj _ => true

/-- JavaScript property lookup on an association list where a later entry
with the same key shadows an earlier one (so object spread is list
append). -/
def jsGetLast (l : List (String × α)) (k : String) : Option α :=
  l.foldl (fun acc p => if p.1 = k then some p.2 else acc) none

/-- Property access `value[k]` on a JSON value: `none` models the
JavaScript `undefined` produced for a missing key or a non-object. -/
def jsField : Json → String → Option Json
  | Json.obj fields, k => jsGetLast fields k
  | _, _ => none

/-- The `response.posts || []` unwrapping shared by getPostsByTag,
getPostsByUser and getLikes: the `posts` value when it is truthy, the
empty array when it is absent or falsy. -/
def postsOrEmpty (body : Json) : Json :=
  match jsField body "posts" with
  | some v => if truthy v then v else Json.arr []
  | none => Json.arr []

/-- An HTTP response: status code and already-decoded JSON body. -/
structure HttpResponse where
  status : Nat
  body : Json

/-- The `res.ok` flag of the fetch API: status in the range 200–299. -/
def responseOk (r : HttpResponse) : Bool :=
  200 ≤ r.status && r.status < 300

/-- `fetchJSON`: the network is a function from request paths to
responses; a non-ok response throws `HTTP error <status>`, an ok response
yields its decoded JSON body. -/
def fetchJSON (fetchResp : String → HttpResponse) (path : String) : Except String Json :=
  let res := fetchResp path
  if responseOk res then Except.ok res.body
  else Except.error ("HTTP error " ++ toString res.status)

/-- The `${page > 0 ? `/${page}` : ''}` template fragment. -/
def pageSuffix (page : Nat) : String :=
  if page > 0 then "/" ++ toString page else ""

/-- Path built by `getTag`. -/
def getTagPath (tag : String) : String :=
  "/get/index/" ++ encodeURIComponent tag

/-- Path built by `getUser`. -/
def getUserPath (username : String) : String :=
  "/get/u/" ++ encodeURIComponent username

/-- Path built by `getPost`. -/
def getPostPath (postId : String) : String :=
  "/view/post/" ++ encodeURIComponent postId

/-- Path built by `getPostsByTag`. -/
def getPostsByTagPath (tag : String) (page : Nat) : String :=
  "/get/tag/" ++ encodeURIComponent tag ++ pageSuffix page

/-- Path built by `getPostsByUser` (the "3" pseudo-album). -/
def getPostsByUserPath (username : String) (page : Nat) : String :=
  "/view/album/" ++ encodeURIComponent username ++ "/3" ++ pageSuffix page

/-- Path built by `getLikes` (the "o" pseudo-album). -/
def getLikesPath (username : String) (page : Nat) : String :=
  "/view/album/" ++ encodeURIComponent username ++ "/o" ++ pageSuffix page

/-- Path built by `getAlbum`. -/
def getAlbumPath (username albumId : String) (page : Nat) : String :=
  "/view/album/" ++ encodeURIComponent username ++ "/"
    ++ encodeURIComponent albumId ++ pageSuffix page

/-- `getTag`: fetch `/get/index/<tag>` and return the body verbatim. -/
def getTag (fetchResp : String → HttpResponse) (tag : String) : Except String Json :=
  fetchJSON fetchResp (getTagPath tag)

/-- `getUser`: fetch `/get/u/<username>` and return the body verbatim. -/
def getUser (fetchResp : String → HttpResponse) (username : String) : Except String Json :=
  fetchJSON fetchResp (getUserPath username)

/-- `getPost`: fetch `/view/post/<postId>` and return the body verbatim. -/
def getPost (fetchResp : String → HttpResponse) (postId : String) : Except String Json :=
  fetchJSON fetchResp (getPostPath postId)

/-- `getPostsByTag`: fetch the tag listing and unwrap `posts || []`. -/
def getPostsByTag (fetchResp : String → HttpResponse) (tag : String) (page : Nat) :
    Except String Json :=
  (fetchJSON fetchResp (getPostsByTagPath tag page)).map postsOrEmpty

/-- `getPostsByUser`: fetch the user album listing and unwrap `posts || []`. -/
def getPostsByUser (fetchResp : String → HttpResponse) (username : String) (page : Nat) :
    Except String Json :=
  (fetchJSON fetchResp (getPostsByUserPath username page)).map postsOrEmpty

/-- `getLikes`: fetch the likes album listing and unwrap `posts || []`. -/
def getLikes (fetchResp : String → HttpResponse) (username : String) (page : Nat) :
    Except String Json :=
  (fetchJSON fetchResp (getLikesPath username page)).map postsOrEmpty

/-- `getAlbum`: fetch the album and return the body verbatim. -/
def getAlbum (fetchResp : String → HttpResponse) (username albumId : String) (page : Nat) :
    Except String Json :=
  fetchJSON fetchResp (getAlbumPath username albumId page)

/-- The four post fields read by `getThumbnail`. -/
structure Post where
  submitUserId : Int
  id : Int
  metaFingerprint : String
  metaFiletype : String

/-- `getThumbnail`: format the fetched post's fields into the fixed
gallery URL template on orca2.furtrack.com. -/
def getThumbnail (postResult : Except String Post) : Except String String :=
  postResult.map (fun postData =>
    "https://orca2.furtrack.com/gallery/" ++ toString postData.submitUserId ++ "/"
      ++ toString postData.id ++ "-" ++ postData.metaFingerprint
      ++ "." ++ postData.metaFiletype)

/-- Mutable client configuration: the API key and the default header
object.  The header object is an association list in which a later entry
shadows an earlier one with the same key, so JavaScript object spread and
property assignment are both modelled by appending entries. -/
structure ClientState where
  apiKey : Option String
  defaultHeaders : List (String × String)

/-- `setHeaders`: `this.defaultHeaders = { ...this.defaultHeaders, ...headers }`. -/
def setHeaders (st : ClientState) (headers : List (String × String)) : ClientState :=
  { st with defaultHeaders := st.defaultHeaders ++ headers }

/-- `setApiKey`: store the key and assign the `Authorization` header to
`Bearer <key>`. -/
def setApiKey (st : ClientState) (key : String) : ClientState :=
  { apiKey := some key,
    defaultHeaders := st.defaultHeaders ++ [("Authorization", "Bearer " ++ key)] }

/-- C3: the page segment is appended only when page is positive, page 0
omits it entirely, and the four tabulated example paths are reproduced
byte for byte. -/
theorem request_paths :
    (∀ page : Nat, page = 0 → pageSuffix page = "")
    ∧ (∀ page : Nat, page > 0 → pageSuffix page = "/" ++ toString page)
    ∧ (∀ tag page, getPostsByTagPath tag page =
        "/get/tag/" ++ encodeURIComponent tag ++ pageSuffix page)
    ∧ (∀ username page, getPostsByUserPath username page =
        "/view/album/" ++ encodeURIComponent username ++ "/3" ++ pageSuffix page)
    ∧ (∀ username page, getLikesPath username page =
        "/view/album/" ++ encodeURIComponent username ++ "/o" ++ pageSuffix page)
    ∧ (∀ username albumId page, getAlbumPath username albumId page =
        "/view/album/" ++ encodeURIComponent username ++ "/"
          ++ encodeURIComponent albumId ++ pageSuffix page)
    ∧ getPostsByTagPath "foo" 0 = "/get/tag/foo"
    ∧ getPostsByUserPath "user" 2 = "/view/album/user/3/2"
    ∧ getLikesPath "user" 1 = "/view/album/user/o/1"
    ∧ getAlbumPath "user" "albumid" 0 = "/view/album/user/albumid" := by
  refine ⟨?_, ?_, fun _ _ => rfl, fun _ _ => rfl, fun _ _ => rfl, fun _ _ _ => rfl,
    by decide, by decide, by decide, by decide⟩
  · intro page h
    subst h
    rfl
  · intro page h
    rw [pageSuffix, if_pos h]

theorem request_paths_witness :
    pageSuffix 0 = "" ∧ pageSuffix 2 = "/" ++ toString 2 :=
  ⟨request_paths.1 0 rfl, request_paths.2.1 2 (by decide)⟩

/-- C6: every interpolated path segment — the tag, username, postId and
albumId — passes through encodeURIComponent before interpolation, and
encodeURIComponent is invertible (its percent-decoding recovers exactly
the original code points, hence distinct segments never collide). -/
theorem encoded_path_segments :
    (∀ tag, getTagPath tag = "/get/index/" ++ encodeURIComponent tag)
    ∧ (∀ username, getUserPath username = "/get/u/" ++ encodeURIComponent username)
    ∧ (∀ postId, getPostPath postId = "/view/post/" ++ encodeURIComponent postId)
    ∧ (∀ tag page, getPostsByTagPath tag page =
        "/get/tag/" ++ encodeURIComponent tag ++ pageSuffix page)
    ∧ (∀ username page, getPostsByUserPath username page =
        "/view/album/" ++ encodeURIComponent username ++ "/3" ++ pageSuffix page)
    ∧ (∀ username page, getLikesPath username page =
        "/view/album/" ++ encodeURIComponent username ++ "/o" ++ pageSuffix page)
    ∧ (∀ username albumId page, getAlbumPath username albumId page =
        "/view/album/" ++ encodeURIComponent username ++ "/"
          ++ encodeURIComponent albumId ++ pageSuffix page)
    ∧ (∀ s t : String, encodeURIComponent s = encodeURIComponent t → s = t)
    ∧ (∀ s : String,
        decodeCodePoints (encodeURIComponent s).data = some (s.data.map Char.toNat)) :=
  ⟨fun _ => rfl, fun _ => rfl, fun _ => rfl, fun _ _ => rfl, fun _ _ => rfl,
   fun _ _ => rfl, fun _ _ _ => rfl,
   encodeURIComponent_injective, decodeCodePoints_encodeURIComponent⟩

theorem encoded_path_segments_witness :
    encodeURIComponent "a:/b" = "a%3A%2Fb" ∧ ("q" : String) = "q" :=
  ⟨by decide, encoded_path_segments.2.2.2.2.2.2.2.1 "q" "q" rfl⟩

/-- C5: a non-ok status makes fetchJSON — and with it every network
operation — fail with an error carrying the numeric status and leaves the
body unused; an ok status returns the decoded body; and an error occurs
exactly when the status is non-ok. -/
theorem fetchJSON_status (fetchResp : String → HttpResponse) (path : String) :
    (responseOk (fetchResp path) = false →
      fetchJSON fetchResp path =
        Except.error ("HTTP error " ++ toString (fetchResp path).status))
    ∧ (responseOk (fetchResp path) = true →
      fetchJSON fetchResp path = Except.ok (fetchResp path).body)
    ∧ (∀ e, fetchJSON fetchResp path = Except.error e →
        responseOk (fetchResp path) = false)
    ∧ (∀ tag page, responseOk (fetchResp (getPostsByTagPath tag page)) = false →
        getPostsByTag fetchResp tag page =
          Except.error ("HTTP error " ++ toString (fetchResp (getPostsByTagPath tag page)).status))
    ∧ (∀ username page, responseOk (fetchResp (getPostsByUserPath username page)) = false →
        getPostsByUser fetchResp username page =
          Except.error ("HTTP error " ++ toString (fetchResp (getPostsByUserPath username page)).status))
    ∧ (∀ username page, responseOk (fetchResp (getLikesPath username page)) = false →
        getLikes fetchResp username page =
          Except.error ("HTTP error " ++ toString (fetchResp (getLikesPath username page)).status))
    ∧ (∀ tag, responseOk (fetchResp (getTagPath tag)) = false →
        getTag fetchResp tag =
          Except.error ("HTTP error " ++ toString (fetchResp (getTagPath tag)).status))
    ∧ (∀ username, responseOk (fetchResp (getUserPath username)) = false →
        getUser fetchResp username =
          Except.error ("HTTP error " ++ toString (fetchResp (getUserPath username)).status))
    ∧ (∀ postId, responseOk (fetchResp (getPostPath postId)) = false →
        getPost fetchResp postId =
          Except.error ("HTTP error " ++ toString (fetchResp (getPostPath postId)).status))
    ∧ (∀ username albumId page,
        responseOk (fetchResp (getAlbumPath username albumId page)) = false →
        getAlbum fetchResp username albumId page =
          Except.error ("HTTP error " ++ toString (fetchResp (getAlbumPath username albumId page)).status)) := by
  refine ⟨?_, ?_, ?_, ?_, ?_, ?_, ?_, ?_, ?_, ?_⟩
  · intro h; simp [fetchJSON, h]
  · intro h; simp [fetchJSON, h]
  · intro e he
    cases hok : responseOk (fetchResp path) with
    | false => rfl
    | true => simp [fetchJSON, hok] at he
  · intro tag page h; simp [getPostsByTag, fetchJSON, Except.map, h]
  · intro username page h; simp [getPostsByUser, fetchJSON, Except.map, h]
  · intro username page h; simp [getLikes, fetchJSON, Except.map, h]
  · intro tag h; simp [getTag, fetchJSON, h]
  · intro username h; simp [getUser, fetchJSON, h]
  · intro postId h; simp [getPost, fetchJSON, h]
  · intro username albumId page h; simp [getAlbum, fetchJSON, h]

theorem fetchJSON_status_witness :
    fetchJSON (fun _ => ⟨404, Json.null⟩) "/x" =
      Except.error ("HTTP error " ++ toString (404 : Nat))
    ∧ fetchJSON (fun _ => ⟨200, Json.null⟩) "/x" = Except.ok Json.null :=
  ⟨(fetchJSON_status (fun _ => ⟨404, Json.null⟩) "/x").1 (by decide),
   (fetchJSON_status (fun _ => ⟨200, Json.null⟩) "/x").2.1 (by decide)⟩

theorem postsOrEmpty_of_truthy (b v : Json) (h : jsField b "posts" = some v)
    (ht : truthy v = true) : postsOrEmpty b = v := by
  simp [postsOrEmpty, h, ht]

theorem postsOrEmpty_of_falsy (b v : Json) (h : jsField b "posts" = some v)
    (ht : truthy v = false) : postsOrEmpty b = Json.arr [] := by
  simp [postsOrEmpty, h, ht]

theorem postsOrEmpty_of_none (b : Json) (h : jsField b "posts" = none) :
    postsOrEmpty b = Json.arr [] := by
  simp [postsOrEmpty, h]

/-- C4 counterexample: a 200 response whose body has a `posts` key present
with value null makes getPostsByTag return the empty array, not the
present value — refuting the claim that a present `posts` field is
returned as-is. -/
theorem posts_present_falsy_counterexample :
    getPostsByTag (fun _ => ⟨200, Json.obj [("posts", Json.null)]⟩) "t" 0
      = Except.ok (Json.arr [])
    ∧ jsField (Json.obj [("posts", Json.null)]) "posts" = some Json.null
    ∧ Json.arr [] ≠ Json.null := by
  refine ⟨rfl, rfl, fun h => Json.noConfusion h⟩

/-- C4 amended: the list-fetch operations return the value of the body's
posts field when it is present and truthy (for example posts:[1,2] yields
[1,2]), and return the empty array when the posts key is absent. -/
theorem posts_unwrap (fetchResp : String → HttpResponse) (s : String) (page : Nat) :
    (responseOk (fetchResp (getPostsByTagPath s page)) = true →
      (∀ v, jsField (fetchResp (getPostsByTagPath s page)).body "posts" = some v →
        truthy v = true → getPostsByTag fetchResp s page = Except.ok v)
      ∧ (jsField (fetchResp (getPostsByTagPath s page)).body "posts" = none →
        getPostsByTag fetchResp s page = Except.ok (Json.arr [])))
    ∧ (responseOk (fetchResp (getPostsByUserPath s page)) = true →
      (∀ v, jsField (fetchResp (getPostsByUserPath s page)).body "posts" = some v →
        truthy v = true → getPostsByUser fetchResp s page = Except.ok v)
      ∧ (jsField (fetchResp (getPostsByUserPath s page)).body "posts" = none →
        getPostsByUser fetchResp s page = Except.ok (Json.arr [])))
    ∧ (responseOk (fetchResp (getLikesPath s page)) = true →
      (∀ v, jsField (fetchResp (getLikesPath s page)).body "posts" = some v →
        truthy v = true → getLikes fetchResp s page = Except.ok v)
      ∧ (jsField (fetchResp (getLikesPath s page)).body "posts" = none →
        getLikes fetchResp s page = Except.ok (Json.arr []))) := by
  refine ⟨fun hok => ⟨?_, ?_⟩, fun hok => ⟨?_, ?_⟩, fun hok => ⟨?_, ?_⟩⟩
  · intro v hv ht
    simp [getPostsByTag, fetchJSON, Except.map, hok, postsOrEmpty_of_truthy _ v hv ht]
  · intro hn
    simp [getPostsByTag, fetchJSON, Except.map, hok, postsOrEmpty_of_none _ hn]
  · intro v hv ht
    simp [getPostsByUser, fetchJSON, Except.map, hok, postsOrEmpty_of_truthy _ v hv ht]
  · intro hn
    simp [getPostsByUser, fetchJSON, Except.map, hok, postsOrEmpty_of_none _ hn]
  · intro v hv ht
    simp [getLikes, fetchJSON, Except.map, hok, postsOrEmpty_of_truthy _ v hv ht]
  · intro hn
    simp [getLikes, fetchJSON, Except.map, hok, postsOrEmpty_of_none _ hn]

theorem posts_unwrap_witness :
    getPostsByTag (fun _ => ⟨200, Json.obj [("posts", Json.arr [Json.num 1, Json.num 2])]⟩)
      "foo" 0 = Except.ok (Json.arr [Json.num 1, Json.num 2])
    ∧ getPostsByTag (fun _ => ⟨200, Json.obj []⟩) "foo" 0 = Except.ok (Json.arr []) :=
  ⟨((posts_unwrap (fun _ => ⟨200, Json.obj [("posts", Json.arr [Json.num 1, Json.num 2])]⟩)
      "foo" 0).1 (by decide)).1 (Json.arr [Json.num 1, Json.num 2]) rfl rfl,
   ((posts_unwrap (fun _ => ⟨200, Json.obj []⟩) "foo" 0).1 (by decide)).2 rfl⟩

/-- C10: whenever the posts key maps to a falsy value — null, false, 0 or
the empty string are all falsy — the list-fetch operations silently
substitute the empty array for it. -/
theorem posts_falsy_default :
    (∀ (fetchResp : String → HttpResponse) (s : String) (page : Nat) (v : Json),
      responseOk (fetchResp (getPostsByTagPath s page)) = true →
      jsField (fetchResp (getPostsByTagPath s page)).body "posts" = some v →
      truthy v = false →
      getPostsByTag fetchResp s page = Except.ok (Json.arr []))
    ∧ (∀ (fetchResp : String → HttpResponse) (s : String) (page : Nat) (v : Json),
      responseOk (fetchResp (getPostsByUserPath s page)) = true →
      jsField (fetchResp (getPostsByUserPath s page)).body "posts" = some v →
      truthy v = false →
      getPostsByUser fetchResp s page = Except.ok (Json.arr []))
    ∧ (∀ (fetchResp : String → HttpResponse) (s : String) (page : Nat) (v : Json),
      responseOk (fetchResp (getLikesPath s page)) = true →
      jsField (fetchResp (getLikesPath s page)).body "posts" = some v →
      truthy v = false →
      getLikes fetchResp s page = Except.ok (Json.arr []))
    ∧ truthy Json.null = false
    ∧ truthy (Json.bool false) = false
    ∧ truthy (Json.num 0) = false
    ∧ truthy (Json.str "") = false := by
  refine ⟨?_, ?_, ?_, rfl, rfl, by decide, by decide⟩
  · intro fetchResp s page v hok hv ht
    simp [getPostsByTag, fetchJSON, Except.map, hok, postsOrEmpty_of_falsy _ v hv ht]
  · intro fetchResp s page v hok hv ht
    simp [getPostsByUser, fetchJSON, Except.map, hok, postsOrEmpty_of_falsy _ v hv ht]
  · intro fetchResp s page v hok hv ht
    simp [getLikes, fetchJSON, Except.map, hok, postsOrEmpty_of_falsy _ v hv ht]

theorem posts_falsy_default_witness :
    getLikes (fun _ => ⟨200, Json.obj [("posts", Json.bool false)]⟩) "user" 0
      = Except.ok (Json.arr []) :=
  posts_falsy_default.2.2.1 (fun _ => ⟨200, Json.obj [("posts", Json.bool false)]⟩)
    "user" 0 (Json.bool false) (by decide) rfl rfl

/-- C8: getThumbnail formats the four post fields into the fixed gallery
URL template; on the post with submitUserId 42, id 99, fingerprint "abc",
filetype "jpg" it yields exactly the expected URL. -/
theorem getThumbnail_format :
    (∀ p : Post, getThumbnail (Except.ok p) =
      Except.ok ("https://orca2.furtrack.com/gallery/" ++ toString p.submitUserId ++ "/"
        ++ toString p.id ++ "-" ++ p.metaFingerprint ++ "." ++ p.metaFiletype))
    ∧ getThumbnail (Except.ok ⟨42, 99, "abc", "jpg"⟩) =
      Except.ok "https://orca2.furtrack.com/gallery/42/99-abc.jpg" := by
  refine ⟨fun p => rfl, ?_⟩
  show Except.ok ("https://orca2.furtrack.com/gallery/" ++ toString (42 : Int) ++ "/"
    ++ toString (99 : Int) ++ "-" ++ "abc" ++ "." ++ "jpg") =
    Except.ok "https://orca2.furtrack.com/gallery/42/99-abc.jpg"
  exact congrArg Except.ok (by decide)

theorem jsGetLast_foldl (l : List (String × α)) (k : String) (acc : Option α) :
    l.foldl (fun acc p => if p.1 = k then some p.2 else acc) acc =
      match jsGetLast l k with
      | some v => some v
      | none => acc := by
  induction l generalizing acc with
  | nil => rfl
  | cons p ps ih =>
    have hcons : jsGetLast (p :: ps) k =
        match jsGetLast ps k with
        | some v => some v
        | none => if p.1 = k then some p.2 else none := by
      rw [jsGetLast, List.foldl_cons, ih]
    rw [List.foldl_cons, ih, hcons]
    cases hv : jsGetLast ps k with
    | some v => rfl
    | none => split_ifs <;> rfl

theorem jsGetLast_append (a b : List (String × α)) (k : String) :
    jsGetLast (a ++ b) k =
      match jsGetLast b k with
      | some v => some v
      | none => jsGetLast a k := by
  rw [jsGetLast, List.foldl_append, jsGetLast_foldl]
  rfl

/-- C9: setHeaders is a shallow merge — after the call every key of the
supplied mapping holds its supplied value (case-sensitively; new keys are
added, existing keys overwritten), every key not mentioned keeps its
previous value, and neither setHeaders nor setApiKey ever removes a
key. -/
theorem setHeaders_merge (st : ClientState) (hs : List (String × String)) (k : String) :
    (∀ v, jsGetLast hs k = some v →
      jsGetLast (setHeaders st hs).defaultHeaders k = some v)
    ∧ (jsGetLast hs k = none →
      jsGetLast (setHeaders st hs).defaultHeaders k = jsGetLast st.defaultHeaders k)
    ∧ (jsGetLast st.defaultHeaders k ≠ none →
      jsGetLast (setHeaders st hs).defaultHeaders k ≠ none)
    ∧ (∀ key, jsGetLast st.defaultHeaders k ≠ none →
      jsGetLast (setApiKey st key).defaultHeaders k ≠ none) := by
  refine ⟨?_, ?_, ?_, ?_⟩
  · intro v hv
    rw [setHeaders, jsGetLast_append, hv]
  · intro hn
    rw [setHeaders, jsGetLast_append, hn]
  · intro hprev
    rw [setHeaders, jsGetLast_append]
    cases hv : jsGetLast hs k with
    | some v => simp
    | none => simpa using hprev
  · intro key hprev
    rw [setApiKey]
    show jsGetLast (st.defaultHeaders ++ [("Authorization", "Bearer " ++ key)]) k ≠ none
    rw [jsGetLast_append]
    cases hv : jsGetLast [("Authorization", "Bearer " ++ key)] k with
    | some v => simp
    | none => simpa using hprev

theorem setHeaders_merge_witness :
    jsGetLast (setHeaders ⟨none, [("User-Agent", "furtrack-api")]⟩
      [("X-Test", "foo")]).defaultHeaders "X-Test" = some "foo"
    ∧ jsGetLast (setHeaders ⟨none, [("User-Agent", "furtrack-api")]⟩
      [("X-Test", "foo")]).defaultHeaders "User-Agent" =
        jsGetLast [("User-Agent", "furtrack-api")] "User-Agent" :=
  ⟨(setHeaders_merge ⟨none, [("User-Agent", "furtrack-api")]⟩
      [("X-Test", "foo")] "X-Test").1 "foo" (by decide),
   (setHeaders_merge ⟨none, [("User-Agent", "furtrack-api")]⟩
      [("X-Test", "foo")] "User-Agent").2.1 (by decide)⟩

end Furtrack
